import Mathlib

/-!
# Blood-donation request server: shallow embedding and verification

This file embeds the blood-request matching and status-transition engine of
the repository (an Express/MongoDB server) and proves or refutes the frozen
claims about it.

Documents are modelled as JSON/BSON-like values; MongoDB field-path lookup,
equality / `$in` matching, `$set` with dotted paths, and `$push`/`$slice`
are given executable semantics covering exactly the constructs the handlers
use.  The HTTP handlers of `src/index.js` (the current revision) and the
PATCH handler of the older revision are translated operation by operation.
-/

namespace BloodServer

/-- BSON-like document values.  Only the constructors the server actually
stores and queries are modelled. -/
inductive Value where
  | vNull : Value
  | vStr (s : String) : Value
  | vNum (n : Int) : Value
  | vBool (b : Bool) : Value
  | vObj (fields : List (String × Value)) : Value
  | vArr (elems : List Value) : Value
deriving Repr

/-- An HTTP response: status code and message (the `respond` helper derives
`success` purely from the status range, so the pair determines the envelope). -/
structure Resp where
  status : Nat
  message : String
deriving Repr, DecidableEq

/-- Field access on a document: `vObj` looks the key up in order (first
binding wins, as in BSON); everything else has no fields. -/
def Value.getField : Value → String → Option Value
  | .vObj fs, k => fs.lookup k
  | _, _ => none

/-- Resolve a split field path (`["status", "current"]`) inside a value. -/
def getPath (v : Value) : List String → Option Value
  | [] => some v
  | k :: ks =>
    match v.getField k with
    | some w => getPath w ks
    | none => none

/-- Split a dotted MongoDB field path at the `.` separators (accumulator of
characters of the current segment, kept reversed). -/
def splitDotAux : List Char → List Char → List String
  | [], acc => [String.mk acc.reverse]
  | c :: cs, acc =>
    if c = '.' then String.mk acc.reverse :: splitDotAux cs []
    else splitDotAux cs (c :: acc)

/-- Split a dotted MongoDB field path: `"status.current"` becomes
`["status", "current"]`, and `"requester?.email"` becomes the literal key
`"requester?"` followed by `"email"`, exactly as the MongoDB server would
interpret it. -/
def splitDot (s : String) : List String :=
  splitDotAux s.data []

/-- Resolve a MongoDB dotted field path inside a document. -/
def lookupFieldPath (doc : Value) (path : String) : Option Value :=
  getPath doc (splitDot path)

/-- JavaScript truthiness for the values that can appear here. -/
def truthy : Value → Bool
  | .vNull => false
  | .vStr s => s ≠ ""
  | .vNum n => n ≠ 0
  | .vBool b => b
  | .vObj _ => true
  | .vArr _ => true

/-- Truthiness of an optional value (`undefined` is falsy). -/
def truthyOpt : Option Value → Bool
  | none => false
  | some v => truthy v

/-- JavaScript strict equality (`===`) restricted to the shapes the handlers
compare: `undefined === undefined` is true, `null === undefined` is false,
strings compare by content, objects never compare equal here (the code only
ever compares extracted strings). -/
def jsStrictEq : Option Value → Option Value → Bool
  | none, none => true
  | some .vNull, some .vNull => true
  | some (.vStr a), some (.vStr b) => a == b
  | some (.vNum a), some (.vNum b) => a == b
  | some (.vBool a), some (.vBool b) => a == b
  | _, _ => false

/-- Does an optional value equal the given string (strict equality against a
string literal, as in `currentStatus !== "inprogress"`)? -/
def isStr (v : Option Value) (s : String) : Bool :=
  match v with
  | some (.vStr t) => t == s
  | _ => false

/-- Query conditions used by the handlers: equality with a string, equality
with `null` (which in MongoDB also matches a missing field — this is how the
driver serialises a JavaScript `undefined` by default), and `$in` over
strings. -/
inductive Cond where
  | eqStr (s : String) : Cond
  | eqNull : Cond
  | inStr (ss : List String) : Cond
deriving Repr

/-- MongoDB matching of one condition against the value found at a path. -/
def matchesCond (v : Option Value) : Cond → Bool
  | .eqStr s => isStr v s
  | .eqNull =>
    match v with
    | none => true
    | some .vNull => true
    | _ => false
  | .inStr ss =>
    match v with
    | some (.vStr t) => ss.contains t
    | _ => false

/-- A conjunctive MongoDB filter document: list of (field path, condition). -/
def matchesQuery (doc : Value) (q : List (String × Cond)) : Bool :=
  q.all fun pc => matchesCond (lookupFieldPath doc pc.1) pc.2

/-- `collection.findOne(q)`: first document (in natural order) matching. -/
def findOne (store : List Value) (q : List (String × Cond)) : Option Value :=
  store.find? (matchesQuery · q)

/-- Serialise a JavaScript value read off the request body into a query
condition: a string becomes string equality; `undefined` and `null` are both
sent as BSON `null` (the driver's default `ignoreUndefined: false`). -/
def condOfOpt : Option Value → Cond
  | some (.vStr s) => .eqStr s
  | _ => .eqNull

/-- `newBloodRequest.requester?.email` — optional-chained read. -/
def reqEmail (req : Value) : Option Value :=
  getPath req ["requester", "email"]

/-- `newBloodRequest.donor?.email` — optional-chained read. -/
def donEmail (req : Value) : Option Value :=
  getPath req ["donor", "email"]

/-- POST `/blood-requests` (current revision, `src/index.js`): the
self-donation check, the active-pairing `findOne`, the donor-busy `findOne`,
then `insertOne`.  Returns the response together with the store after the
call.  The pairing and busy queries use the literal field paths
`"requester?.email"` / `"donor?.email"` exactly as written in the source. -/
def create (store : List Value) (req : Value) : Resp × List Value :=
  if jsStrictEq (reqEmail req) (donEmail req) then
    (⟨403, "You cannot create a blood request for yourself"⟩, store)
  else
    let pairQuery : List (String × Cond) :=
      [("requester?.email", condOfOpt (reqEmail req)),
       ("donor?.email", condOfOpt (donEmail req)),
       ("status.current", Cond.inStr ["pending", "inprogress"])]
    match findOne store pairQuery with
    | some _ =>
      (⟨409, "This donor is already assisting with your active request"⟩, store)
    | none =>
      let busyQuery : List (String × Cond) :=
        [("donor?.email", condOfOpt (donEmail req)),
         ("status.current", Cond.eqStr "inprogress")]
      match findOne store busyQuery with
      | some _ =>
        (⟨409, "This donor is currently helping another patient"⟩, store)
      | none =>
        (⟨201, "Blood request created successfully"⟩, store ++ [req])

/-- Replace (or append) a top-level binding in a field list. -/
def setFieldList (fs : List (String × Value)) (k : String) (x : Value) :
    List (String × Value) :=
  match fs with
  | [] => [(k, x)]
  | (k0, v0) :: rest =>
    if k0 == k then (k0, x) :: rest else (k0, v0) :: setFieldList rest k x

/-- Set one field of a value.  On a non-object the stored documents never
exercise this case; it is modelled as creating a fresh object. -/
def setField : Value → String → Value → Value
  | .vObj fs, k, x => .vObj (setFieldList fs k x)
  | _, k, x => .vObj [(k, x)]

/-- MongoDB `$set` along a split dotted path, creating intermediate objects
when absent (the handlers only ever set paths whose intermediates exist as
objects in the stored documents). -/
def setPath (v : Value) : List String → Value → Value
  | [], x => x
  | [k], x => setField v k x
  | k :: k2 :: ks, x =>
    setField v k (setPath ((v.getField k).getD (.vObj [])) (k2 :: ks) x)

/-- Apply a `$set` update document (list of dotted path / value pairs) in
order, later keys overriding earlier ones as in a JavaScript object literal. -/
def applySet (doc : Value) (fields : List (String × Value)) : Value :=
  fields.foldl (fun d kv => setPath d (splitDot kv.1) kv.2) doc

/-- `updateOne(filter, update)`: rewrite the first matching document. -/
def updateFirst (p : Value → Bool) (f : Value → Value) :
    List Value → List Value
  | [] => []
  | d :: ds => if p d then f d :: ds else d :: updateFirst p f ds

/-- `deleteOne(filter)`: remove the first matching document. -/
def removeFirst (p : Value → Bool) : List Value → List Value
  | [] => []
  | d :: ds => if p d then ds else d :: removeFirst p ds

/-- The `{_id: id}` filter (ids are modelled as their hex strings). -/
def idMatch (id : String) (d : Value) : Bool :=
  isStr (d.getField "_id") id

/-- `existingRequest.status.history || []` once `status` is known to be an
object: an array is taken as is, anything null/absent defaults to `[]`. -/
def historyOf (doc : Value) : List Value :=
  match getPath doc ["status", "history"] with
  | some (.vArr l) => l
  | _ => []

/-- `existingRequest.status?.current` — optional-chained read. -/
def statusCurrentOf (doc : Value) : Option Value :=
  getPath doc ["status", "current"]

/-- Serialise an optional string from the body: `undefined` keys are sent as
BSON `null` by the driver. -/
def optStrVal : Option String → Value
  | some s => .vStr s
  | none => .vNull

/-- JavaScript falsiness of an optional string parameter (`!email`):
missing (`undefined`) and the empty string are falsy. -/
def falsyStr : Option String → Bool
  | none => true
  | some s => s == ""

/-- `ObjectId` validity for a string input, as accepted by both revisions'
`validateId` (`new ObjectId(id)` inside try/catch, and `ObjectId.isValid`):
a 12-character string (taken as raw bytes) or a 24-character hex string. -/
def isValidObjectId (s : String) : Bool :=
  s.length == 12 ||
    (s.length == 24 && s.toList.all fun c =>
      c.isDigit || ('a' ≤ c && c ≤ 'f') || ('A' ≤ c && c ≤ 'F'))

/-- `updateOne({_id: id}, {$set: fields})` followed by the handler's
`matchedCount` check and re-fetch: on a match, respond 200 and rewrite the
document; otherwise 404. -/
def applyAndRespond (store : List Value) (id : String)
    (fields : List (String × Value)) (okMsg : String) : Resp × List Value :=
  if store.any (idMatch id) then
    (⟨200, okMsg⟩, updateFirst (idMatch id) (applySet · fields) store)
  else
    (⟨404, "Blood request not found"⟩, store)

/-- One `status.history` entry as built by the current revision's PATCH
handler: `{status, changedAt, changedBy: {email, name, role}}`. -/
def historyEntry (statusVal : Value) (now e : String) (name : Option String)
    (r : String) : Value :=
  .vObj [("status", statusVal), ("changedAt", .vStr now),
         ("changedBy", .vObj [("email", .vStr e), ("name", optStrVal name),
                              ("role", .vStr r)])]

/-- The `$set` document both `complete` and `cancel` build: new
`status.current`, old history with one appended entry, fresh `updatedAt`. -/
def transitionFields (doc : Value) (newStat : String) (now e : String)
    (name : Option String) (r : String) : List (String × Value) :=
  [("status.current", Value.vStr newStat),
   ("status.history",
    Value.vArr (historyOf doc ++ [historyEntry (.vStr newStat) now e name r])),
   ("updatedAt", Value.vStr now)]

/-- The replacement `status` object built by the `update` action when the
body carries a truthy `status.current`. -/
def updatedStatusObj (doc : Value) (cur : Value) (now e : String)
    (name : Option String) (r : String) : Value :=
  .vObj [("current", cur),
         ("history", .vArr (historyOf doc ++ [historyEntry cur now e name r]))]

/-- `case "update"` of the PATCH handler: permission check, then a `$set`
of the body's remaining fields plus `updatedAt`, plus — when the body
supplies a truthy `status.current` — a whole replacement `status` object
carrying the appended history.  No transition validation is performed.
Reading `existingRequest.status.history` throws (→ 500) when `status` is
null or absent. -/
def updateAction (store : List Value) (id : String) (doc : Value)
    (r e : String) (name : Option String) (bodyStatus : Option Value)
    (updateData : List (String × Value)) (now : String) : Resp × List Value :=
  let isRequester := jsStrictEq (getPath doc ["requester", "email"]) (some (.vStr e))
  if !(isRequester || r == "admin" || r == "volunteer") then
    (⟨403, "Not authorized to update this request"⟩, store)
  else
    let bCur := match bodyStatus with
      | some v => getPath v ["current"]
      | none => none
    if truthyOpt bCur then
      match getPath doc ["status"] with
      | none => (⟨500, "Server error"⟩, store)
      | some .vNull => (⟨500, "Server error"⟩, store)
      | some _ =>
        let cur := bCur.getD .vNull
        applyAndRespond store id
          (updateData ++ [("updatedAt", Value.vStr now),
                          ("status", updatedStatusObj doc cur now e name r)])
          "Request updated successfully"
    else
      applyAndRespond store id (updateData ++ [("updatedAt", Value.vStr now)])
        "Request updated successfully"

/-- `case "complete"` of the PATCH handler: requester/donor/admin/volunteer
may complete, only from `inprogress`; sets the dotted paths
`status.current`, `status.history`, `updatedAt`. -/
def completeAction (store : List Value) (id : String) (doc : Value)
    (r e : String) (name : Option String) (now : String) : Resp × List Value :=
  let isRequester := jsStrictEq (getPath doc ["requester", "email"]) (some (.vStr e))
  let isDonor := jsStrictEq (getPath doc ["donor", "email"]) (some (.vStr e))
  if !(isRequester || isDonor || r == "admin" || r == "volunteer") then
    (⟨403, "Not authorized to complete this request"⟩, store)
  else if !isStr (statusCurrentOf doc) "inprogress" then
    (⟨400, "Can only complete in-progress requests"⟩, store)
  else
    applyAndRespond store id (transitionFields doc "completed" now e name r)
      "Request completed successfully"

/-- `case "cancel"` of the PATCH handler: requester/admin only, from
`pending` or `inprogress` only. -/
def cancelAction (store : List Value) (id : String) (doc : Value)
    (r e : String) (name : Option String) (now : String) : Resp × List Value :=
  let isRequester := jsStrictEq (getPath doc ["requester", "email"]) (some (.vStr e))
  if !(isRequester || r == "admin") then
    (⟨403, "Only requester or admin can cancel request"⟩, store)
  else if !(isStr (statusCurrentOf doc) "pending" ||
             isStr (statusCurrentOf doc) "inprogress") then
    (⟨400, "Can only cancel pending or in-progress requests"⟩, store)
  else
    applyAndRespond store id (transitionFields doc "cancelled" now e name r)
      "Request cancelled successfully"

/-- PATCH `/blood-requests/:id` (current revision): `validateId` middleware,
required `role`/`email`, action whitelist, fetch by id, then dispatch. -/
def patchRequest (store : List Value) (id : String)
    (role email name action : Option String) (bodyStatus : Option Value)
    (updateData : List (String × Value)) (now : String) : Resp × List Value :=
  if id == "" then
    (⟨400, "ID parameter is required (provide in URL path or query)"⟩, store)
  else if !isValidObjectId id then
    (⟨400, "Invalid ID format"⟩, store)
  else if falsyStr role || falsyStr email then
    (⟨400, "Role and email are required"⟩, store)
  else
    let validAction :=
      match action with
      | some a => ["update", "complete", "cancel"].contains a
      | none => false
    if !validAction then
      (⟨400, "Invalid action specified"⟩, store)
    else
      match findOne store [("_id", Cond.eqStr id)] with
      | none => (⟨404, "Blood request not found"⟩, store)
      | some doc =>
        let r := role.getD ""
        let e := email.getD ""
        match action with
        | some "update" =>
          updateAction store id doc r e name bodyStatus updateData now
        | some "complete" => completeAction store id doc r e name now
        | some "cancel" => cancelAction store id doc r e name now
        | _ => (⟨400, "Invalid action specified"⟩, store)

/-- GET `/blood-requests/:id` (current revision): `validateId`, then fetch. -/
def getById (store : List Value) (id : String) : Resp × Option Value :=
  if id == "" then
    (⟨400, "ID parameter is required (provide in URL path or query)"⟩, none)
  else if !isValidObjectId id then
    (⟨400, "Invalid ID format"⟩, none)
  else
    match findOne store [("_id", Cond.eqStr id)] with
    | some doc => (⟨200, "Blood request retrieved successfully"⟩, some doc)
    | none => (⟨404, "Blood request not found"⟩, none)

/-- DELETE `/blood-requests/:id` (current revision): `validateId`, required
`email` query parameter, fetch, ownership/admin check, then the
pending-or-cancelled status gate, then `deleteOne`.  Reading
`request.status.current` throws (→ 500) when `status` is null or absent. -/
def deleteRequest (store : List Value) (id : String)
    (email role : Option String) : Resp × List Value :=
  if id == "" then
    (⟨400, "ID parameter is required (provide in URL path or query)"⟩, store)
  else if !isValidObjectId id then
    (⟨400, "Invalid ID format"⟩, store)
  else if falsyStr email then
    (⟨400, "Requester email is required for verification"⟩, store)
  else
    let e := email.getD ""
    match findOne store [("_id", Cond.eqStr id)] with
    | none => (⟨404, "Blood request not found"⟩, store)
    | some doc =>
      if !(role == some "admin") &&
         !jsStrictEq (getPath doc ["requester", "email"]) (some (.vStr e)) then
        (⟨403, "You are not authorized to delete this request"⟩, store)
      else
        match doc.getField "status" with
        | none => (⟨500, "Server error"⟩, store)
        | some .vNull => (⟨500, "Server error"⟩, store)
        | some st =>
          if !isStr (st.getField "current") "pending" &&
             !isStr (st.getField "current") "cancelled" then
            (⟨403, "Can only delete requests with 'pending' or 'cancelled' status"⟩,
             store)
          else if store.any (idMatch id) then
            (⟨200, "Blood request deleted successfully"⟩,
             removeFirst (idMatch id) store)
          else
            (⟨404, "Blood request not found"⟩, store)

/-- JavaScript `x || "system"` fallback chain of the older revision
(`req.user` is never populated there, so the middle alternative vanishes). -/
def valueOrSystem : Option Value → Value
  | some w => if truthy w then w else .vStr "system"
  | none => .vStr "system"

/-- Optional body value serialised by the driver (`undefined` → null). -/
def valOrNull : Option Value → Value :=
  fun v => v.getD .vNull

/-- The history entry the older revision pushes: `changedBy` falls back to
`"system"` per field, with fixed role `"donor"`. -/
def oldEntry (cur : Value) (donorId donorName donorEmail : Option Value)
    (now : String) : Value :=
  .vObj [("status", cur), ("changedAt", .vStr now),
         ("changedBy",
          .vObj [("id", valueOrSystem donorId),
                 ("name", valueOrSystem donorName),
                 ("email", valueOrSystem donorEmail),
                 ("role", .vStr "donor")])]

/-- The `$set` part of the older revision's update document. -/
def oldSetFields (donationStatus : Option Value) (cur : Value)
    (donorId donorName donorEmail : Option Value) (now : String) :
    List (String × Value) :=
  [("donationStatus", valOrNull donationStatus),
   ("updatedAt", Value.vStr now),
   ("status.current", cur)] ++
  (if truthyOpt donorId then
     [("metadata",
       Value.vObj [("donorId", valOrNull donorId),
                   ("donorName", valOrNull donorName),
                   ("donorEmail", valOrNull donorEmail),
                   ("updatedAt", .vStr now)])]
   else [])

/-- Effect of the older revision's combined update on one document: the
`$set` fields, then `$push status.history $each [entry] $slice: -5`
(append, keep the last 5). -/
def oldApply (donationStatus : Option Value) (cur : Value)
    (donorId donorName donorEmail : Option Value) (now : String)
    (d : Value) : Value :=
  let pushed := historyOf d ++ [oldEntry cur donorId donorName donorEmail now]
  setPath (applySet d (oldSetFields donationStatus cur donorId donorName donorEmail now))
    ["status", "history"] (.vArr (pushed.drop (pushed.length - 5)))

/-- PATCH `/blood-requests/:id` of the older revision (`src/unnamed/part_000`):
requires truthy `donationStatus` and `status.current` in the body, then one
update combining `$set` of `donationStatus` / `updatedAt` / `status.current`
(and `metadata` when a donor id is supplied) with
`$push status.history $each [entry] $slice: -5`.  The handler keys its
success on `modifiedCount === 1`; a matched update here always modifies the
document because the pushed history entry is new. -/
def patchOld (store : List Value) (id : String)
    (donationStatus bodyStatus donorId donorName donorEmail : Option Value)
    (now : String) : Resp × List Value :=
  if id == "" then
    (⟨400, "ID parameter is required (provide in URL path or query)"⟩, store)
  else if !isValidObjectId id then
    (⟨400, "Invalid ID format"⟩, store)
  else
    let bCur := match bodyStatus with
      | some v => getPath v ["current"]
      | none => none
    if !truthyOpt donationStatus || !truthyOpt bCur then
      (⟨400, "Missing required status fields"⟩, store)
    else
      if store.any (idMatch id) then
        (⟨200, "Request updated successfully"⟩,
         updateFirst (idMatch id)
           (oldApply donationStatus (bCur.getD .vNull) donorId donorName donorEmail now)
           store)
      else
        (⟨404, "No request found or no changes made"⟩, store)

/-- Pagination metadata as produced for the list endpoint. -/
structure Meta where
  total : Nat
  page : Nat
  limit : Nat
  totalPages : Nat
deriving Repr, DecidableEq

/-- Sort key for `{createdAt: -1}` (missing keys sort as the empty string). -/
def createdAtKey (d : Value) : String :=
  match d.getField "createdAt" with
  | some (.vStr s) => s
  | _ => ""

/-- Modelled from the spec: the `paginate` helper imported from
`./utils/helpers` is absent from the sources (the helpers file only defines
`respond` and `getBloodGroupQuery`); §6's pagination contract gives
`page ≥ 1` (default 1), `limit` clamped to `[1,100]`, the supplied sort
(here `{createdAt: -1}`), skip/take paging, and
`meta = {total, page, limit, totalPages = ceil(total/limit)}`. -/
def paginate (store : List Value) (q : Value → Bool) (page limit : Nat) :
    List Value × Meta :=
  let filtered := store.filter q
  let parsedPage := max page 1
  let parsedLimit := min (max limit 1) 100
  let sorted :=
    List.insertionSort (fun a b => createdAtKey b ≤ createdAtKey a) filtered
  let items := (sorted.drop ((parsedPage - 1) * parsedLimit)).take parsedLimit
  (items,
   ⟨filtered.length, parsedPage, parsedLimit,
    (filtered.length + parsedLimit - 1) / parsedLimit⟩)

/-- The `$or` filter built for an email-identified caller: requester OR
donor (these paths are spelled correctly in the list handler). -/
def listQuery (e : String) (d : Value) : Bool :=
  matchesQuery d [("requester.email", Cond.eqStr e)] ||
  matchesQuery d [("donor.email", Cond.eqStr e)]

/-- Result of the list endpoint. -/
inductive ListOutcome where
  | items (l : List Value) (m : Meta) : ListOutcome
  | rejected (r : Resp) : ListOutcome
deriving Repr

/-- GET `/blood-requests` (current revision): an email-identified caller is
scoped to requests naming them as requester or donor; otherwise role
admin/volunteer sees everything; otherwise 400. -/
def listRequests (store : List Value) (email role : Option String)
    (page limit : Nat) : ListOutcome :=
  if !falsyStr email then
    let p := paginate store (listQuery (email.getD "")) page limit
    .items p.1 p.2
  else if role == some "admin" || role == some "volunteer" then
    let p := paginate store (fun _ => true) page limit
    .items p.1 p.2
  else
    .rejected ⟨400, "Email or valid role is required to fetch donation requests"⟩

/-! ## Concrete data used to exercise the handlers -/

/-- A syntactically valid ObjectId (24 hex characters). -/
def oidA : String := "aaaaaaaaaaaaaaaaaaaaaaaa"

/-- A stored blood request, shaped exactly as a successful create inserts it
and the PATCH handlers expect it. -/
def mkRequest (re de cur : String) (hist : List Value) : Value :=
  .vObj [("_id", .vStr oidA), ("requester", .vObj [("email", .vStr re)]),
         ("donor", .vObj [("email", .vStr de)]),
         ("donationStatus", .vStr cur),
         ("status", .vObj [("current", .vStr cur), ("history", .vArr hist)])]

/-- A creation body naming a requester and a donor. -/
def mkBody (re de : String) : Value :=
  .vObj [("requester", .vObj [("email", .vStr re)]),
         ("donor", .vObj [("email", .vStr de)]),
         ("status", .vObj [("current", .vStr "pending"), ("history", .vArr [])])]

/-! ## Basic lemmas about the embedded MongoDB operations -/

theorem isStr_iff (v : Option Value) (s : String) :
    isStr v s = true ↔ v = some (.vStr s) := by
  cases v with
  | none => simp [isStr]
  | some w => cases w <;> simp [isStr]

theorem jsStrictEq_some_str (v : Option Value) (s : String) :
    jsStrictEq v (some (.vStr s)) = true ↔ v = some (.vStr s) := by
  cases v with
  | none => simp [jsStrictEq]
  | some w => cases w <;> simp [jsStrictEq]

theorem lookup_setFieldList_self (fs : List (String × Value)) (k : String)
    (x : Value) : (setFieldList fs k x).lookup k = some x := by
  induction fs with
  | nil => simp [setFieldList, List.lookup]
  | cons p rest ih =>
    by_cases h : p.1 = k
    · simp [setFieldList, h, List.lookup]
    · have hb : (p.1 == k) = false := beq_eq_false_iff_ne.mpr h
      have hb2 : (k == p.1) = false :=
        beq_eq_false_iff_ne.mpr fun hh => h hh.symm
      simp [setFieldList, hb, List.lookup, hb2, ih]

theorem lookup_setFieldList_ne (fs : List (String × Value)) (k k2 : String)
    (x : Value) (h : k ≠ k2) :
    (setFieldList fs k x).lookup k2 = fs.lookup k2 := by
  have hb2k : (k2 == k) = false := beq_eq_false_iff_ne.mpr (Ne.symm h)
  induction fs with
  | nil => simp [setFieldList, List.lookup, hb2k]
  | cons p rest ih =>
    by_cases hk : p.1 = k
    · have hb : (p.1 == k) = true := beq_iff_eq.mpr hk
      have hb2 : (k2 == p.1) = false := by
        rw [hk]; exact hb2k
      simp [setFieldList, hb, List.lookup, hb2, hk, hb2k]
    · have hb : (p.1 == k) = false := beq_eq_false_iff_ne.mpr hk
      by_cases hk2 : k2 = p.1
      · simp [setFieldList, hb, List.lookup, hk2]
      · have hb2 : (k2 == p.1) = false := beq_eq_false_iff_ne.mpr hk2
        simp [setFieldList, hb, List.lookup, hb2, ih]

theorem getField_setField_self (v : Value) (k : String) (x : Value) :
    (setField v k x).getField k = some x := by
  cases v <;> simp [setField, Value.getField, lookup_setFieldList_self,
    List.lookup]

theorem getField_setField_ne (v : Value) (k k2 : String) (x : Value)
    (h : k ≠ k2) : (setField v k x).getField k2 = v.getField k2 := by
  have hb2 : (k2 == k) = false := beq_eq_false_iff_ne.mpr (Ne.symm h)
  cases v <;>
    simp [setField, Value.getField, lookup_setFieldList_ne _ _ _ _ h,
      List.lookup, hb2]

theorem getPath_single (v : Value) (k : String) :
    getPath v [k] = v.getField k := by
  cases hx : v.getField k <;> simp [getPath, hx]

theorem getField_setPath_ne (v : Value) (k : String) (ks : List String)
    (x : Value) (k2 : String) (h : k ≠ k2) :
    (setPath v (k :: ks) x).getField k2 = v.getField k2 := by
  cases ks with
  | nil => simp [setPath, getField_setField_ne _ _ _ _ h]
  | cons k3 ks3 => simp [setPath, getField_setField_ne _ _ _ _ h]

theorem getPath_setPath_cons_ne (v : Value) (k : String) (ks : List String)
    (x : Value) (k2 : String) (ps : List String) (h : k ≠ k2) :
    getPath (setPath v (k :: ks) x) (k2 :: ps) = getPath v (k2 :: ps) := by
  simp [getPath, getField_setPath_ne _ _ _ _ _ h]

theorem getPath_setPath_pair_self (v : Value) (k1 k2 : String) (x : Value) :
    getPath (setPath v [k1, k2] x) [k1, k2] = some x := by
  show getPath (setField v k1 (setPath _ [k2] x)) (k1 :: [k2]) = some x
  simp only [getPath, getField_setField_self]
  simp [setPath, getPath_single, getField_setField_self]

theorem getPath_setPath_pair_snd_ne (v : Value) (k1 k2 : String) (x : Value)
    (k3 : String) (h : k2 ≠ k3) :
    getPath (setPath v [k1, k2] x) [k1, k3] = getPath v [k1, k3] := by
  show getPath (setField v k1 (setPath _ [k2] x)) (k1 :: [k3]) = _
  simp only [getPath, getField_setField_self]
  rw [show setPath ((v.getField k1).getD (Value.vObj [])) [k2] x
        = setField ((v.getField k1).getD (Value.vObj [])) k2 x from rfl,
     getField_setField_ne _ _ _ _ h]
  cases hv : v.getField k1 with
  | none => simp [hv, Value.getField, List.lookup]
  | some w => simp [hv]

theorem matchesQuery_id (d : Value) (id : String) :
    matchesQuery d [("_id", Cond.eqStr id)] = idMatch id d := by
  have hs : splitDot "_id" = ["_id"] := by decide
  simp [matchesQuery, idMatch, lookupFieldPath, matchesCond, hs, getPath_single]

theorem any_idMatch_of_findOne {store : List Value} {id : String} {doc : Value}
    (h : findOne store [("_id", Cond.eqStr id)] = some doc) :
    store.any (idMatch id) = true := by
  unfold findOne at h
  have mem := List.mem_of_find?_eq_some h
  have pd := List.find?_some h
  rw [matchesQuery_id] at pd
  exact List.any_eq_true.mpr ⟨doc, mem, pd⟩

/-! ## Claim C2 — the active-pairing check (code bug) -/

/-- **C2** (failing run): a request with requester `a@x`, donor `b@x` and
`status.current = "pending"` is already stored, yet creating a second
request for the very same pair succeeds with 201 and inserts a duplicate —
the pairing query filters on the literal field paths `"requester?.email"` /
`"donor?.email"`, which no stored document carries, so `DuplicatePairing`
can never fire.  The final conjuncts confirm the stored document really
does match the claim's precondition under the correct field paths. -/
theorem claim2_duplicate_pairing_not_detected :
    (create [mkRequest "a@x" "b@x" "pending" []] (mkBody "a@x" "b@x")).1
      = ⟨201, "Blood request created successfully"⟩ ∧
    (create [mkRequest "a@x" "b@x" "pending" []] (mkBody "a@x" "b@x")).2
      = [mkRequest "a@x" "b@x" "pending" [], mkBody "a@x" "b@x"] ∧
    getPath (mkRequest "a@x" "b@x" "pending" []) ["requester", "email"]
      = some (.vStr "a@x") ∧
    getPath (mkRequest "a@x" "b@x" "pending" []) ["donor", "email"]
      = some (.vStr "b@x") ∧
    getPath (mkRequest "a@x" "b@x" "pending" []) ["status", "current"]
      = some (.vStr "pending") ∧
    reqEmail (mkBody "a@x" "b@x") = some (.vStr "a@x") ∧
    donEmail (mkBody "a@x" "b@x") = some (.vStr "b@x") :=
  ⟨rfl, rfl, rfl, rfl, rfl, rfl, rfl⟩

/-! ## Claim C3 — the donor-busy check (code bug) -/

/-- **C3** (failing run): a stored request names donor `b@x` with
`status.current = "inprogress"`, yet a fresh create by a different
requester for the same donor succeeds with 201 and is inserted — the busy
query's literal path `"donor?.email"` matches no stored document, so
`DonorUnavailable` can never fire. -/
theorem claim3_donor_busy_not_detected :
    (create [mkRequest "c@x" "b@x" "inprogress" []] (mkBody "a@x" "b@x")).1
      = ⟨201, "Blood request created successfully"⟩ ∧
    (create [mkRequest "c@x" "b@x" "inprogress" []] (mkBody "a@x" "b@x")).2
      = [mkRequest "c@x" "b@x" "inprogress" [], mkBody "a@x" "b@x"] ∧
    getPath (mkRequest "c@x" "b@x" "inprogress" []) ["donor", "email"]
      = some (.vStr "b@x") ∧
    getPath (mkRequest "c@x" "b@x" "inprogress" []) ["status", "current"]
      = some (.vStr "inprogress") ∧
    donEmail (mkBody "a@x" "b@x") = some (.vStr "b@x") :=
  ⟨rfl, rfl, rfl, rfl, rfl⟩

/-! ## Claim C1 — status transitions (counterexample: update validates nothing) -/

/-- **C1** (counterexample): on a stored request in state `pending`, the
`update` action issued by an admin with `payload.status.current =
"completed"` — a value not reachable from `pending` along the claimed
edges — succeeds with 200 and stores `"completed"`; with the value
`"bogus"`, outside the status enumeration altogether, it equally succeeds
and stores `"bogus"`.  The claimed `InvalidTransition` rejection does not
exist for `update`. -/
theorem claim1_counterexample :
    (patchRequest [mkRequest "a@x" "b@x" "pending" []] oidA (some "admin")
        (some "adm@x") none (some "update")
        (some (.vObj [("current", .vStr "completed")])) [] "T1").1.status
      = 200 ∧
    ((patchRequest [mkRequest "a@x" "b@x" "pending" []] oidA (some "admin")
        (some "adm@x") none (some "update")
        (some (.vObj [("current", .vStr "completed")])) [] "T1").2.head?.bind
      fun d => getPath d ["status", "current"]) = some (.vStr "completed") ∧
    (patchRequest [mkRequest "a@x" "b@x" "pending" []] oidA (some "admin")
        (some "adm@x") none (some "update")
        (some (.vObj [("current", .vStr "bogus")])) [] "T1").1.status = 200 ∧
    ((patchRequest [mkRequest "a@x" "b@x" "pending" []] oidA (some "admin")
        (some "adm@x") none (some "update")
        (some (.vObj [("current", .vStr "bogus")])) [] "T1").2.head?.bind
      fun d => getPath d ["status", "current"]) = some (.vStr "bogus") :=
  ⟨rfl, rfl, rfl, rfl⟩

/-! ## Claim C4 — history retention (counterexample: no cap at K = 10) -/

/-- **C4** (counterexample): cancelling a request whose history already
holds 10 entries succeeds and stores a history of length 11 — the current
revision's PATCH handler appends with no retention cap at all. -/
theorem claim4_counterexample :
    (patchRequest
        [mkRequest "a@x" "b@x" "inprogress" (List.replicate 10 (.vStr "h"))]
        oidA (some "admin") (some "adm@x") none (some "cancel") none []
        "T1").1.status = 200 ∧
    ((patchRequest
        [mkRequest "a@x" "b@x" "inprogress" (List.replicate 10 (.vStr "h"))]
        oidA (some "admin") (some "adm@x") none (some "cancel") none []
        "T1").2.head?.map fun d => (historyOf d).length) = some 11 :=
  ⟨rfl, rfl⟩

/-! ## Claim C5 — donationStatus mirroring (counterexample: never written) -/

/-- **C5** (counterexample): completing an in-progress request succeeds,
sets `status.current = "completed"`, but leaves `donationStatus` at its old
value `"inprogress"` — the current revision's `complete` (and `cancel`)
update documents never touch `donationStatus`. -/
theorem claim5_counterexample :
    (patchRequest [mkRequest "a@x" "b@x" "inprogress" []] oidA (some "donor")
        (some "b@x") none (some "complete") none [] "T1").1.status = 200 ∧
    ((patchRequest [mkRequest "a@x" "b@x" "inprogress" []] oidA (some "donor")
        (some "b@x") none (some "complete") none [] "T1").2.head?.bind
      fun d => getPath d ["donationStatus"]) = some (.vStr "inprogress") ∧
    ((patchRequest [mkRequest "a@x" "b@x" "inprogress" []] oidA (some "donor")
        (some "b@x") none (some "complete") none [] "T1").2.head?.bind
      fun d => getPath d ["status", "current"]) = some (.vStr "completed") :=
  ⟨rfl, rfl, rfl⟩

/-! ## Claim C6 — self-request rejection (confirmed) -/

/-- **C6**: a creation body whose requester email equals its donor email is
rejected with 403 before any repository access — the result is the 403
response with the store returned untouched, for every store, so no read
influences the outcome and nothing is inserted; and conversely every create
that returns 201 has distinct requester and donor emails whenever both are
present. -/
theorem claim6_self_request_rejected (store : List Value) (req : Value)
    (e : String) (h1 : reqEmail req = some (.vStr e))
    (h2 : donEmail req = some (.vStr e)) :
    create store req
      = (⟨403, "You cannot create a blood request for yourself"⟩, store) ∧
    ∀ (store2 : List Value) (req2 : Value) (e1 e2 : String),
      (create store2 req2).1.status = 201 →
      reqEmail req2 = some (.vStr e1) → donEmail req2 = some (.vStr e2) →
      e1 ≠ e2 := by
  constructor
  · have hself : jsStrictEq (reqEmail req) (donEmail req) = true := by
      rw [h1, h2]; simp [jsStrictEq]
    simp [create, hself]
  · intro store2 req2 e1 e2 hsucc hr hd heq
    subst heq
    have hself : jsStrictEq (reqEmail req2) (donEmail req2) = true := by
      rw [hr, hd]; simp [jsStrictEq]
    simp [create, hself] at hsucc

/-- **C6** (witness): the theorem applied to a concrete self-request. -/
theorem claim6_witness :
    create [] (mkBody "a@x" "a@x")
      = (⟨403, "You cannot create a blood request for yourself"⟩, []) :=
  (claim6_self_request_rejected [] (mkBody "a@x" "a@x") "a@x" rfl rfl).1

/-! ## Claim C10 — malformed ObjectId short-circuit (confirmed) -/

/-- **C10**: on GET, PATCH and DELETE of `/blood-requests/:id`, a non-empty
id that is not a syntactically valid ObjectId yields 400 "Invalid ID format"
— the result is a constant independent of the store, so no repository read
happens, and the store is returned unchanged, so nothing is written. -/
theorem claim10_invalid_id_rejected (store : List Value) (id : String)
    (email role name action : Option String) (bodyStatus : Option Value)
    (updateData : List (String × Value)) (now : String)
    (hne : id ≠ "") (hinv : isValidObjectId id = false) :
    getById store id = (⟨400, "Invalid ID format"⟩, none) ∧
    patchRequest store id role email name action bodyStatus updateData now
      = (⟨400, "Invalid ID format"⟩, store) ∧
    deleteRequest store id email role = (⟨400, "Invalid ID format"⟩, store) := by
  have h0 : (id == "") = false := beq_eq_false_iff_ne.mpr hne
  refine ⟨?_, ?_, ?_⟩ <;>
    simp [getById, patchRequest, deleteRequest, h0, hinv]

/-- **C10** (witness): the theorem applied at the malformed id `"zzz"`. -/
theorem claim10_witness :
    getById [] "zzz" = (⟨400, "Invalid ID format"⟩, none) ∧
    patchRequest [] "zzz" (some "admin") (some "a@x") none (some "update")
      none [] "T" = (⟨400, "Invalid ID format"⟩, []) ∧
    deleteRequest [] "zzz" (some "a@x") (some "admin")
      = (⟨400, "Invalid ID format"⟩, []) :=
  claim10_invalid_id_rejected [] "zzz" (some "a@x") (some "admin") none
    (some "update") none [] "T" (by decide) (by decide)

/-! ## Claim C8 — delete authorization and state gate (confirmed) -/

/-- Reduction of `deleteRequest` once the middleware checks pass and the
document is found with an object-valued `status`: only the authorization
and state gates remain. -/
theorem deleteRequest_reduce (store : List Value) (id e : String)
    (role : Option String) (doc : Value) (fs : List (String × Value))
    (hne : id ≠ "") (hid : isValidObjectId id = true) (he : e ≠ "")
    (hfind : findOne store [("_id", Cond.eqStr id)] = some doc)
    (hst : doc.getField "status" = some (.vObj fs)) :
    deleteRequest store id (some e) role =
      if !(role == some "admin") &&
         !jsStrictEq (getPath doc ["requester", "email"]) (some (.vStr e)) then
        (⟨403, "You are not authorized to delete this request"⟩, store)
      else if !isStr ((Value.vObj fs).getField "current") "pending" &&
              !isStr ((Value.vObj fs).getField "current") "cancelled" then
        (⟨403, "Can only delete requests with 'pending' or 'cancelled' status"⟩,
         store)
      else
        (⟨200, "Blood request deleted successfully"⟩,
         removeFirst (idMatch id) store) := by
  have h0 : (id == "") = false := beq_eq_false_iff_ne.mpr hne
  have hemail : falsyStr (some e) = false := by simp [falsyStr, he]
  have hany := any_idMatch_of_findOne hfind
  simp only [deleteRequest, h0, hid, hemail, Bool.not_false, Bool.not_true,
    if_false, if_true, Bool.false_eq_true, hfind, Option.getD_some, hst, hany]

/-- **C8**: given a well-formed stored request (object `status` carrying a
string `current` equal to `c`) found under the requested id, deletion
succeeds exactly when the caller is an admin or the owning requester AND
`c ∈ {pending, cancelled}`; an unauthorized caller gets the Forbidden
response, an authorized caller in any other state gets the InvalidState
response, and both rejections leave the store untouched; on success the
matched document is removed and nothing else changes. -/
theorem claim8_delete_characterised (store : List Value) (id e : String)
    (role : Option String) (doc : Value) (fs : List (String × Value))
    (c : String)
    (hne : id ≠ "") (hid : isValidObjectId id = true) (he : e ≠ "")
    (hfind : findOne store [("_id", Cond.eqStr id)] = some doc)
    (hst : doc.getField "status" = some (.vObj fs))
    (hcur : (Value.vObj fs).getField "current" = some (.vStr c)) :
    ((deleteRequest store id (some e) role).1.status = 200 ↔
      ((role = some "admin" ∨
        getPath doc ["requester", "email"] = some (.vStr e)) ∧
       (c = "pending" ∨ c = "cancelled"))) ∧
    (¬ (role = some "admin" ∨
        getPath doc ["requester", "email"] = some (.vStr e)) →
      deleteRequest store id (some e) role
        = (⟨403, "You are not authorized to delete this request"⟩, store)) ∧
    ((role = some "admin" ∨
      getPath doc ["requester", "email"] = some (.vStr e)) →
      ¬ (c = "pending" ∨ c = "cancelled") →
      deleteRequest store id (some e) role
        = (⟨403,
            "Can only delete requests with 'pending' or 'cancelled' status"⟩,
           store)) ∧
    ((role = some "admin" ∨
      getPath doc ["requester", "email"] = some (.vStr e)) →
      (c = "pending" ∨ c = "cancelled") →
      deleteRequest store id (some e) role
        = (⟨200, "Blood request deleted successfully"⟩,
           removeFirst (idMatch id) store)) := by
  have hred := deleteRequest_reduce store id e role doc fs hne hid he hfind hst
  have hauth : ((role == some "admin") ||
      jsStrictEq (getPath doc ["requester", "email"]) (some (.vStr e))) = true ↔
      (role = some "admin" ∨
        getPath doc ["requester", "email"] = some (.vStr e)) := by
    simp [jsStrictEq_some_str]
  have hstate : ((isStr ((Value.vObj fs).getField "current") "pending") ||
      (isStr ((Value.vObj fs).getField "current") "cancelled")) = true ↔
      (c = "pending" ∨ c = "cancelled") := by
    rw [hcur]; simp [isStr]
  by_cases hA : role = some "admin" ∨
      getPath doc ["requester", "email"] = some (.vStr e)
  · have hA2 : ((role == some "admin") ||
        jsStrictEq (getPath doc ["requester", "email"]) (some (.vStr e))) = true :=
      hauth.mpr hA
    by_cases hS : c = "pending" ∨ c = "cancelled"
    · have hS2 := hstate.mpr hS
      rw [hred]
      simp only [Bool.not_or] at hA2 hS2 ⊢
      rw [show (!(role == some "admin") &&
            !jsStrictEq (getPath doc ["requester", "email"]) (some (.vStr e)))
          = false by
        rcases Bool.or_eq_true_iff.mp hA2 with h | h <;> simp [h]]
      rw [show (!isStr ((Value.vObj fs).getField "current") "pending" &&
            !isStr ((Value.vObj fs).getField "current") "cancelled") = false by
        rcases Bool.or_eq_true_iff.mp hS2 with h | h <;> simp [h]]
      simp [hA, hS]
    · have hS2 : ((isStr ((Value.vObj fs).getField "current") "pending") ||
          (isStr ((Value.vObj fs).getField "current") "cancelled")) = false := by
        rcases hb : ((isStr ((Value.vObj fs).getField "current") "pending") ||
            (isStr ((Value.vObj fs).getField "current") "cancelled")) with _ | _
        · rfl
        · exact absurd (hstate.mp hb) hS
      rw [hred]
      rw [show (!(role == some "admin") &&
            !jsStrictEq (getPath doc ["requester", "email"]) (some (.vStr e)))
          = false by
        rcases Bool.or_eq_true_iff.mp (hauth.mpr hA) with h | h <;> simp [h]]
      rw [show (!isStr ((Value.vObj fs).getField "current") "pending" &&
            !isStr ((Value.vObj fs).getField "current") "cancelled") = true by
        rcases Bool.or_eq_false_iff.mp hS2 with ⟨h1, h2⟩; simp [h1, h2]]
      simp [hA, hS]
  · have hA2 : ((role == some "admin") ||
        jsStrictEq (getPath doc ["requester", "email"]) (some (.vStr e))) = false := by
      rcases hb : ((role == some "admin") ||
          jsStrictEq (getPath doc ["requester", "email"]) (some (.vStr e))) with _ | _
      · rfl
      · exact absurd (hauth.mp hb) hA
    rw [hred]
    rw [show (!(role == some "admin") &&
          !jsStrictEq (getPath doc ["requester", "email"]) (some (.vStr e)))
        = true by
      rcases Bool.or_eq_false_iff.mp hA2 with ⟨h1, h2⟩; simp [h1, h2]]
    simp [hA]

/-- **C8** (witness): the owning requester deletes their pending request. -/
theorem claim8_witness :
    deleteRequest [mkRequest "a@x" "b@x" "pending" []] oidA (some "a@x") none
      = (⟨200, "Blood request deleted successfully"⟩,
         removeFirst (idMatch oidA) [mkRequest "a@x" "b@x" "pending" []]) :=
  (claim8_delete_characterised [mkRequest "a@x" "b@x" "pending" []] oidA "a@x"
      none (mkRequest "a@x" "b@x" "pending" [])
      [("current", .vStr "pending"), ("history", .vArr [])] "pending"
      (by decide) (by decide) (by decide) rfl rfl rfl).2.2.2
    (Or.inr rfl) (Or.inl rfl)

/-! ## Reduction of the PATCH dispatcher once its framework checks pass -/

theorem patchRequest_complete_reduce (store : List Value) (id r e : String)
    (name : Option String) (bodyStatus : Option Value)
    (updateData : List (String × Value)) (now : String) (doc : Value)
    (hne : id ≠ "") (hid : isValidObjectId id = true)
    (hr : r ≠ "") (he : e ≠ "")
    (hfind : findOne store [("_id", Cond.eqStr id)] = some doc) :
    patchRequest store id (some r) (some e) name (some "complete") bodyStatus
        updateData now
      = completeAction store id doc r e name now := by
  have h0 : (id == "") = false := beq_eq_false_iff_ne.mpr hne
  have hrole : falsyStr (some r) = false := by simp [falsyStr, hr]
  have hemail : falsyStr (some e) = false := by simp [falsyStr, he]
  simp [patchRequest, h0, hid, hrole, hemail, hfind]

theorem patchRequest_cancel_reduce (store : List Value) (id r e : String)
    (name : Option String) (bodyStatus : Option Value)
    (updateData : List (String × Value)) (now : String) (doc : Value)
    (hne : id ≠ "") (hid : isValidObjectId id = true)
    (hr : r ≠ "") (he : e ≠ "")
    (hfind : findOne store [("_id", Cond.eqStr id)] = some doc) :
    patchRequest store id (some r) (some e) name (some "cancel") bodyStatus
        updateData now
      = cancelAction store id doc r e name now := by
  have h0 : (id == "") = false := beq_eq_false_iff_ne.mpr hne
  have hrole : falsyStr (some r) = false := by simp [falsyStr, hr]
  have hemail : falsyStr (some e) = false := by simp [falsyStr, he]
  simp [patchRequest, h0, hid, hrole, hemail, hfind]

theorem patchRequest_update_reduce (store : List Value) (id r e : String)
    (name : Option String) (bodyStatus : Option Value)
    (updateData : List (String × Value)) (now : String) (doc : Value)
    (hne : id ≠ "") (hid : isValidObjectId id = true)
    (hr : r ≠ "") (he : e ≠ "")
    (hfind : findOne store [("_id", Cond.eqStr id)] = some doc) :
    patchRequest store id (some r) (some e) name (some "update") bodyStatus
        updateData now
      = updateAction store id doc r e name bodyStatus updateData now := by
  have h0 : (id == "") = false := beq_eq_false_iff_ne.mpr hne
  have hrole : falsyStr (some r) = false := by simp [falsyStr, hr]
  have hemail : falsyStr (some e) = false := by simp [falsyStr, he]
  simp [patchRequest, h0, hid, hrole, hemail, hfind]

/-! ## Claim C7 — the complete action (confirmed) -/

/-- **C7**: on a found request whose `status.current` is the string `c`, the
`complete` action succeeds exactly when the actor is the requester or the
donor or carries role admin/volunteer AND `c = "inprogress"`.  An
unauthorized actor receives 403 with the store untouched; an authorized
actor in any other state receives 400 with the store untouched; on success
the matched document gets `status.current = "completed"` and the single
appended history entry carrying the actor as `changedBy`. -/
theorem claim7_complete_characterised (store : List Value) (id r e : String)
    (name : Option String) (bodyStatus : Option Value)
    (updateData : List (String × Value)) (now : String) (doc : Value)
    (c : String)
    (hne : id ≠ "") (hid : isValidObjectId id = true)
    (hr : r ≠ "") (he : e ≠ "")
    (hfind : findOne store [("_id", Cond.eqStr id)] = some doc)
    (hcur : statusCurrentOf doc = some (.vStr c)) :
    ((patchRequest store id (some r) (some e) name (some "complete")
        bodyStatus updateData now).1.status = 200 ↔
      ((getPath doc ["requester", "email"] = some (.vStr e) ∨
        getPath doc ["donor", "email"] = some (.vStr e) ∨
        r = "admin" ∨ r = "volunteer") ∧ c = "inprogress")) ∧
    (¬ (getPath doc ["requester", "email"] = some (.vStr e) ∨
        getPath doc ["donor", "email"] = some (.vStr e) ∨
        r = "admin" ∨ r = "volunteer") →
      patchRequest store id (some r) (some e) name (some "complete")
          bodyStatus updateData now
        = (⟨403, "Not authorized to complete this request"⟩, store)) ∧
    ((getPath doc ["requester", "email"] = some (.vStr e) ∨
      getPath doc ["donor", "email"] = some (.vStr e) ∨
      r = "admin" ∨ r = "volunteer") → c ≠ "inprogress" →
      patchRequest store id (some r) (some e) name (some "complete")
          bodyStatus updateData now
        = (⟨400, "Can only complete in-progress requests"⟩, store)) ∧
    ((getPath doc ["requester", "email"] = some (.vStr e) ∨
      getPath doc ["donor", "email"] = some (.vStr e) ∨
      r = "admin" ∨ r = "volunteer") → c = "inprogress" →
      patchRequest store id (some r) (some e) name (some "complete")
          bodyStatus updateData now
        = (⟨200, "Request completed successfully"⟩,
           updateFirst (idMatch id)
             (applySet · (transitionFields doc "completed" now e name r))
             store)) := by
  have hred := patchRequest_complete_reduce store id r e name bodyStatus
    updateData now doc hne hid hr he hfind
  have hany := any_idMatch_of_findOne hfind
  have hauth : (jsStrictEq (getPath doc ["requester", "email"])
        (some (.vStr e)) ||
      jsStrictEq (getPath doc ["donor", "email"]) (some (.vStr e)) ||
      r == "admin" || r == "volunteer") = true ↔
      (getPath doc ["requester", "email"] = some (.vStr e) ∨
       getPath doc ["donor", "email"] = some (.vStr e) ∨
       r = "admin" ∨ r = "volunteer") := by
    simp [jsStrictEq_some_str, or_assoc]
  have hstate : isStr (statusCurrentOf doc) "inprogress" = (c == "inprogress") := by
    rw [hcur]; simp [isStr]
  by_cases hA : getPath doc ["requester", "email"] = some (.vStr e) ∨
      getPath doc ["donor", "email"] = some (.vStr e) ∨
      r = "admin" ∨ r = "volunteer"
  · have hA2 := hauth.mpr hA
    by_cases hS : c = "inprogress"
    · have hS2 : isStr (statusCurrentOf doc) "inprogress" = true := by
        rw [hstate, hS]; simp
      rw [hred]
      simp only [completeAction, hA2, hS2, Bool.not_true, Bool.false_and,
        Bool.and_false, if_false, applyAndRespond, hany, if_true,
        Bool.false_eq_true]
      simp [hA, hS]
    · have hS2 : isStr (statusCurrentOf doc) "inprogress" = false := by
        rw [hstate]; exact beq_eq_false_iff_ne.mpr hS
      rw [hred]
      simp only [completeAction, hA2, hS2, Bool.not_true, Bool.not_false,
        if_false, if_true, Bool.false_eq_true]
      simp [hA, hS]
  · have hA2 : (jsStrictEq (getPath doc ["requester", "email"])
          (some (.vStr e)) ||
        jsStrictEq (getPath doc ["donor", "email"]) (some (.vStr e)) ||
        r == "admin" || r == "volunteer") = false := by
      rcases hb : (jsStrictEq (getPath doc ["requester", "email"])
          (some (.vStr e)) ||
        jsStrictEq (getPath doc ["donor", "email"]) (some (.vStr e)) ||
        r == "admin" || r == "volunteer") with _ | _
      · rfl
      · exact absurd (hauth.mp hb) hA
    rw [hred]
    simp only [completeAction, hA2, Bool.not_false, if_true]
    simp [hA]

/-- **C7** (witness): the donor completes an in-progress request. -/
theorem claim7_witness :
    patchRequest [mkRequest "a@x" "b@x" "inprogress" []] oidA (some "donor")
        (some "b@x") none (some "complete") none [] "T1"
      = (⟨200, "Request completed successfully"⟩,
         updateFirst (idMatch oidA)
           (applySet · (transitionFields (mkRequest "a@x" "b@x" "inprogress" [])
             "completed" "T1" "b@x" none "donor"))
           [mkRequest "a@x" "b@x" "inprogress" []]) :=
  (claim7_complete_characterised [mkRequest "a@x" "b@x" "inprogress" []] oidA
      "donor" "b@x" none none [] "T1" (mkRequest "a@x" "b@x" "inprogress" [])
      "inprogress" (by decide) (by decide) (by decide) (by decide) rfl
      rfl).2.2.2 (Or.inr (Or.inl rfl)) rfl

/-- A document whose `status.current` resolves to a string has an
object-valued `status` field. -/
theorem status_obj_of_current {doc : Value} {c : String}
    (h : statusCurrentOf doc = some (.vStr c)) :
    ∃ fs, doc.getField "status" = some (.vObj fs) := by
  unfold statusCurrentOf at h
  unfold getPath at h
  cases hs : doc.getField "status" with
  | none => rw [hs] at h; simp at h
  | some w =>
    rw [hs] at h
    cases w <;> simp [getPath, Value.getField] at h
    exact ⟨_, rfl⟩

theorem getPath_two_of_getField (v w : Value) (k1 k2 : String)
    (h : v.getField k1 = some w) : getPath v [k1, k2] = w.getField k2 := by
  have h2 : getPath v [k1, k2] = getPath w [k2] := by simp [getPath, h]
  rw [h2, getPath_single]

/-! ## Claim C1 — amended: only complete/cancel validate transitions -/

/-- **C1** (amended): `complete` and `cancel` do move `status.current` only
along their edges — any run of `complete` that changes the store starts
from `inprogress` and writes `"completed"`, any run of `cancel` that
changes the store starts from `pending` or `inprogress` and writes
`"cancelled"`, and from a wrong state both reject with 400 leaving the
store unchanged — but the `update` action validates nothing: an admin
supplying any non-empty `status.current` string `s`, reachable or not,
even outside {pending, inprogress, completed, cancelled}, gets 200 and the
replacement status object stores exactly `s`. -/
theorem claim1_amended (store : List Value) (id r e : String)
    (name : Option String) (now : String) (doc : Value) (c : String)
    (hne : id ≠ "") (hid : isValidObjectId id = true)
    (hr : r ≠ "") (he : e ≠ "")
    (hfind : findOne store [("_id", Cond.eqStr id)] = some doc)
    (hcur : statusCurrentOf doc = some (.vStr c)) :
    (c ≠ "inprogress" →
      (patchRequest store id (some r) (some e) name (some "complete") none []
        now).2 = store) ∧
    ((patchRequest store id (some r) (some e) name (some "complete") none []
        now).1.status = 200 →
      c = "inprogress" ∧
      patchRequest store id (some r) (some e) name (some "complete") none [] now
        = (⟨200, "Request completed successfully"⟩,
           updateFirst (idMatch id)
             (applySet · (transitionFields doc "completed" now e name r))
             store)) ∧
    (c ≠ "pending" → c ≠ "inprogress" →
      (patchRequest store id (some r) (some e) name (some "cancel") none []
        now).2 = store) ∧
    ((patchRequest store id (some r) (some e) name (some "cancel") none []
        now).1.status = 200 →
      (c = "pending" ∨ c = "inprogress") ∧
      patchRequest store id (some r) (some e) name (some "cancel") none [] now
        = (⟨200, "Request cancelled successfully"⟩,
           updateFirst (idMatch id)
             (applySet · (transitionFields doc "cancelled" now e name r))
             store)) ∧
    (∀ s : String, s ≠ "" →
      patchRequest store id (some "admin") (some e) name (some "update")
          (some (.vObj [("current", .vStr s)])) [] now
        = (⟨200, "Request updated successfully"⟩,
           updateFirst (idMatch id)
             (applySet · [("updatedAt", Value.vStr now),
               ("status", updatedStatusObj doc (.vStr s) now e name "admin")])
             store) ∧
      getPath (applySet doc [("updatedAt", Value.vStr now),
          ("status", updatedStatusObj doc (.vStr s) now e name "admin")])
        ["status", "current"] = some (.vStr s)) := by
  have hany := any_idMatch_of_findOne hfind
  have hstate : ∀ t : String, isStr (statusCurrentOf doc) t = (c == t) := by
    intro t; rw [hcur]; simp [isStr]
  obtain ⟨fs, hst⟩ := status_obj_of_current hcur
  have hredc := patchRequest_complete_reduce store id r e name none [] now doc
    hne hid hr he hfind
  have hredx := patchRequest_cancel_reduce store id r e name none [] now doc
    hne hid hr he hfind
  refine ⟨?_, ?_, ?_, ?_, ?_⟩
  · intro hcne
    rw [hredc]
    unfold completeAction
    rcases hb : (jsStrictEq (getPath doc ["requester", "email"])
        (some (.vStr e)) ||
      jsStrictEq (getPath doc ["donor", "email"]) (some (.vStr e)) ||
      r == "admin" || r == "volunteer") with _ | _
    · simp [hb]
    · have : isStr (statusCurrentOf doc) "inprogress" = false := by
        rw [hstate]; exact beq_eq_false_iff_ne.mpr hcne
      simp [hb, this]
  · intro hsucc
    rw [hredc] at hsucc ⊢
    unfold completeAction at hsucc ⊢
    rcases hb : (jsStrictEq (getPath doc ["requester", "email"])
        (some (.vStr e)) ||
      jsStrictEq (getPath doc ["donor", "email"]) (some (.vStr e)) ||
      r == "admin" || r == "volunteer") with _ | _
    · simp [hb] at hsucc
    · rcases hs : isStr (statusCurrentOf doc) "inprogress" with _ | _
      · simp [hb, hs, applyAndRespond] at hsucc
      · have hcip : c = "inprogress" := by
          have := hstate "inprogress"; rw [hs] at this
          exact beq_iff_eq.mp this.symm
        refine ⟨hcip, ?_⟩
        simp [hb, hs, applyAndRespond, hany]
  · intro hcp hcip
    rw [hredx]
    unfold cancelAction
    rcases hb : (jsStrictEq (getPath doc ["requester", "email"])
        (some (.vStr e)) || r == "admin") with _ | _
    · simp [hb]
    · have h1 : isStr (statusCurrentOf doc) "pending" = false := by
        rw [hstate]; exact beq_eq_false_iff_ne.mpr hcp
      have h2 : isStr (statusCurrentOf doc) "inprogress" = false := by
        rw [hstate]; exact beq_eq_false_iff_ne.mpr hcip
      simp [hb, h1, h2]
  · intro hsucc
    rw [hredx] at hsucc ⊢
    unfold cancelAction at hsucc ⊢
    rcases hb : (jsStrictEq (getPath doc ["requester", "email"])
        (some (.vStr e)) || r == "admin") with _ | _
    · simp [hb] at hsucc
    · rcases hs1 : isStr (statusCurrentOf doc) "pending" with _ | _
      · rcases hs2 : isStr (statusCurrentOf doc) "inprogress" with _ | _
        · simp [hb, hs1, hs2, applyAndRespond] at hsucc
        · have hcip : c = "inprogress" := by
            have := hstate "inprogress"; rw [hs2] at this
            exact beq_iff_eq.mp this.symm
          refine ⟨Or.inr hcip, ?_⟩
          simp [hb, hs1, hs2, applyAndRespond, hany]
      · have hcp : c = "pending" := by
          have := hstate "pending"; rw [hs1] at this
          exact beq_iff_eq.mp this.symm
        refine ⟨Or.inl hcp, ?_⟩
        simp [hb, hs1, applyAndRespond, hany]
  · intro s hs
    have hredu := patchRequest_update_reduce store id "admin" e name
      (some (.vObj [("current", .vStr s)])) [] now doc hne hid
      (by decide) he hfind
    constructor
    · rw [hredu]
      unfold updateAction
      have hcurbody : getPath (Value.vObj [("current", Value.vStr s)])
          ["current"] = some (.vStr s) := by
        simp [getPath_single, Value.getField, List.lookup]
      have hstg : getPath doc ["status"] = some (.vObj fs) := by
        rw [getPath_single, hst]
      simp [hcurbody, hstg, truthyOpt, truthy, hs, applyAndRespond, hany]
    · have hsplit1 : splitDot "updatedAt" = ["updatedAt"] := by decide
      have hsplit2 : splitDot "status" = ["status"] := by decide
      have happ : applySet doc [("updatedAt", Value.vStr now),
          ("status", updatedStatusObj doc (.vStr s) now e name "admin")]
          = setField (setField doc "updatedAt" (Value.vStr now)) "status"
              (updatedStatusObj doc (.vStr s) now e name "admin") := by
        simp [applySet, hsplit1, hsplit2, setPath]
      rw [happ, getPath_two_of_getField _ _ _ _
        (getField_setField_self _ _ _)]
      simp [updatedStatusObj, Value.getField, List.lookup]

/-- **C1** (amended, witness): concrete runs — `complete` on a pending
request leaves the store unchanged, and an admin `update` writes the
arbitrary value `"bogus"` into `status.current`. -/
theorem claim1_amended_witness :
    (patchRequest [mkRequest "a@x" "b@x" "pending" []] oidA (some "donor")
        (some "b@x") none (some "complete") none [] "T1").2
      = [mkRequest "a@x" "b@x" "pending" []] ∧
    getPath (applySet (mkRequest "a@x" "b@x" "pending" [])
        [("updatedAt", Value.vStr "T1"),
         ("status", updatedStatusObj (mkRequest "a@x" "b@x" "pending" [])
           (.vStr "bogus") "T1" "b@x" none "admin")])
      ["status", "current"] = some (.vStr "bogus") :=
  ⟨(claim1_amended [mkRequest "a@x" "b@x" "pending" []] oidA "donor" "b@x"
      none "T1" (mkRequest "a@x" "b@x" "pending" []) "pending" (by decide)
      (by decide) (by decide) (by decide) rfl rfl).1 (by decide),
   ((claim1_amended [mkRequest "a@x" "b@x" "pending" []] oidA "donor" "b@x"
      none "T1" (mkRequest "a@x" "b@x" "pending" []) "pending" (by decide)
      (by decide) (by decide) (by decide) rfl rfl).2.2.2.2 "bogus"
      (by decide)).2⟩

/-! ## History and donationStatus read-back lemmas -/

theorem historyOf_setPath (x : Value) (l : List Value) :
    historyOf (setPath x ["status", "history"] (.vArr l)) = l := by
  unfold historyOf
  rw [getPath_setPath_pair_self]

theorem applySet_transition_eq (doc : Value) (ns now e : String)
    (name : Option String) (r : String) :
    applySet doc (transitionFields doc ns now e name r)
      = setPath
          (setPath (setPath doc ["status", "current"] (.vStr ns))
            ["status", "history"]
            (.vArr (historyOf doc ++ [historyEntry (.vStr ns) now e name r])))
          ["updatedAt"] (.vStr now) := by
  have h1 : splitDot "status.current" = ["status", "current"] := by decide
  have h2 : splitDot "status.history" = ["status", "history"] := by decide
  have h3 : splitDot "updatedAt" = ["updatedAt"] := by decide
  simp [applySet, transitionFields, h1, h2, h3]

/-- The current revision's transition update appends to the history with no
retention cap: the stored history is exactly the old history plus one entry. -/
theorem historyOf_transition (doc : Value) (ns now e : String)
    (name : Option String) (r : String) :
    historyOf (applySet doc (transitionFields doc ns now e name r))
      = historyOf doc ++ [historyEntry (.vStr ns) now e name r] := by
  rw [applySet_transition_eq]
  unfold historyOf
  rw [getPath_setPath_cons_ne _ _ _ _ _ _ (by decide),
    getPath_setPath_pair_self]

/-- The older revision's update retains exactly the last 5 entries of the
appended history. -/
theorem historyOf_oldApply (donationStatus : Option Value) (cur : Value)
    (di dn de : Option Value) (now : String) (d : Value) :
    historyOf (oldApply donationStatus cur di dn de now d)
      = (historyOf d ++ [oldEntry cur di dn de now]).drop
          ((historyOf d).length + 1 - 5) := by
  unfold oldApply
  rw [historyOf_setPath]
  simp

/-! ## Claim C4 — amended history retention -/

/-- **C4** (amended): in the current revision a successful `cancel` stores
the old history with one appended entry and no retention cap at all (so
after any number of appends the length simply grows by one each time,
exceeding 10); in the older revision the combined `$push`/`$slice: -5`
update retains exactly the suffix of the last 5 entries, in their original
order — the cap is K = 5, not 10. -/
theorem claim4_amended (store : List Value) (id r e : String)
    (name : Option String) (now : String) (doc : Value)
    (dsv : Value) (sc : String) (di dn de : Option Value)
    (hne : id ≠ "") (hid : isValidObjectId id = true)
    (hr : r ≠ "") (he : e ≠ "")
    (hfind : findOne store [("_id", Cond.eqStr id)] = some doc)
    (hds : truthy dsv = true) (hsc : sc ≠ "") :
    (∀ ns : String,
      historyOf (applySet doc (transitionFields doc ns now e name r))
        = historyOf doc ++ [historyEntry (.vStr ns) now e name r]) ∧
    ((patchRequest store id (some r) (some e) name (some "cancel") none []
        now).1.status = 200 →
      (patchRequest store id (some r) (some e) name (some "cancel") none []
        now).2
        = updateFirst (idMatch id)
            (applySet · (transitionFields doc "cancelled" now e name r))
            store) ∧
    (patchOld store id (some dsv) (some (.vObj [("current", .vStr sc)]))
        di dn de now
      = (⟨200, "Request updated successfully"⟩,
         updateFirst (idMatch id)
           (oldApply (some dsv) (.vStr sc) di dn de now) store)) ∧
    (historyOf (oldApply (some dsv) (.vStr sc) di dn de now doc)
      = (historyOf doc ++ [oldEntry (.vStr sc) di dn de now]).drop
          ((historyOf doc).length + 1 - 5)) ∧
    ((historyOf (oldApply (some dsv) (.vStr sc) di dn de now doc)).length
      = min ((historyOf doc).length + 1) 5) := by
  have hany := any_idMatch_of_findOne hfind
  have h0 : (id == "") = false := beq_eq_false_iff_ne.mpr hne
  have hredx := patchRequest_cancel_reduce store id r e name none [] now doc
    hne hid hr he hfind
  refine ⟨fun ns => historyOf_transition doc ns now e name r, ?_, ?_,
    historyOf_oldApply _ _ _ _ _ _ _, ?_⟩
  · intro hsucc
    rw [hredx] at hsucc ⊢
    unfold cancelAction at hsucc ⊢
    rcases hb : (jsStrictEq (getPath doc ["requester", "email"])
        (some (.vStr e)) || r == "admin") with _ | _
    · simp [hb] at hsucc
    · rcases hs1 : isStr (statusCurrentOf doc) "pending" with _ | _
      · rcases hs2 : isStr (statusCurrentOf doc) "inprogress" with _ | _
        · simp [hb, hs1, hs2, applyAndRespond] at hsucc
        · simp [hb, hs1, hs2, applyAndRespond, hany]
      · simp [hb, hs1, applyAndRespond, hany]
  · have hbc : getPath (Value.vObj [("current", Value.vStr sc)]) ["current"]
        = some (.vStr sc) := by
      simp [getPath_single, Value.getField, List.lookup]
    have hvstr : truthy (Value.vStr sc) = true := by simp [truthy, hsc]
    simp [patchOld, h0, hid, hbc, truthyOpt, hds, hvstr, hany]
  · rw [historyOf_oldApply]
    rw [List.length_drop]
    have : (historyOf doc ++ [oldEntry (.vStr sc) di dn de now]).length
        = (historyOf doc).length + 1 := by simp
    rw [this]
    omega

/-- **C4** (amended, witness): on a 10-entry history, the current revision
stores 11 entries while the older revision would retain the last 5. -/
theorem claim4_amended_witness :
    (historyOf (applySet
        (mkRequest "a@x" "b@x" "inprogress" (List.replicate 10 (.vStr "h")))
        (transitionFields
          (mkRequest "a@x" "b@x" "inprogress" (List.replicate 10 (.vStr "h")))
          "cancelled" "T1" "adm@x" none "admin"))).length = 11 ∧
    (historyOf (oldApply (some (.vStr "done")) (.vStr "completed") none none
        none "T1"
        (mkRequest "a@x" "b@x" "inprogress"
          (List.replicate 10 (.vStr "h"))))).length = 5 := by
  have h := claim4_amended
    [mkRequest "a@x" "b@x" "inprogress" (List.replicate 10 (.vStr "h"))]
    oidA "admin" "adm@x" none "T1"
    (mkRequest "a@x" "b@x" "inprogress" (List.replicate 10 (.vStr "h")))
    (.vStr "done") "completed" none none none (by decide) (by decide)
    (by decide) (by decide) rfl (by decide) (by decide)
  constructor
  · rw [h.1 "cancelled"]
    simp [mkRequest, historyOf, getPath, Value.getField, List.lookup]
  · rw [h.2.2.2.2]
    simp [mkRequest, historyOf, getPath, Value.getField, List.lookup]

/-! ## Claim C5 — amended donationStatus behaviour -/

/-- **C5** (amended): the `$set` documents of `complete` and `cancel` in the
current revision never touch `donationStatus` — after a successful
transition the stored document keeps its previous `donationStatus`
verbatim, so the field mirrors `status.current` only if it happened to
before; the older revision's PATCH does write `donationStatus`, but to the
caller-supplied body value rather than deriving it from the new status. -/
theorem claim5_amended (store : List Value) (id r e : String)
    (name : Option String) (now : String) (doc : Value)
    (dsv : Value) (sc : String) (di dn de : Option Value)
    (hne : id ≠ "") (hid : isValidObjectId id = true)
    (hr : r ≠ "") (he : e ≠ "")
    (hfind : findOne store [("_id", Cond.eqStr id)] = some doc) :
    (∀ ns : String,
      getPath (applySet doc (transitionFields doc ns now e name r))
          ["donationStatus"]
        = getPath doc ["donationStatus"]) ∧
    ((patchRequest store id (some r) (some e) name (some "complete") none []
        now).1.status = 200 →
      (patchRequest store id (some r) (some e) name (some "complete") none []
        now).2
        = updateFirst (idMatch id)
            (applySet · (transitionFields doc "completed" now e name r))
            store) ∧
    (getPath (oldApply (some dsv) (.vStr sc) di dn de now doc)
        ["donationStatus"] = some dsv) := by
  have hany := any_idMatch_of_findOne hfind
  have hredc := patchRequest_complete_reduce store id r e name none [] now doc
    hne hid hr he hfind
  refine ⟨?_, ?_, ?_⟩
  · intro ns
    rw [applySet_transition_eq]
    rw [getPath_setPath_cons_ne _ _ _ _ _ _ (by decide),
      getPath_setPath_cons_ne _ _ _ _ _ _ (by decide),
      getPath_setPath_cons_ne _ _ _ _ _ _ (by decide)]
  · intro hsucc
    rw [hredc] at hsucc ⊢
    unfold completeAction at hsucc ⊢
    rcases hb : (jsStrictEq (getPath doc ["requester", "email"])
        (some (.vStr e)) ||
      jsStrictEq (getPath doc ["donor", "email"]) (some (.vStr e)) ||
      r == "admin" || r == "volunteer") with _ | _
    · simp [hb] at hsucc
    · rcases hs : isStr (statusCurrentOf doc) "inprogress" with _ | _
      · simp [hb, hs, applyAndRespond] at hsucc
      · simp [hb, hs, applyAndRespond, hany]
  · unfold oldApply
    rw [getPath_setPath_cons_ne _ _ _ _ _ _ (by decide)]
    have hsp1 : splitDot "donationStatus" = ["donationStatus"] := by decide
    have hsp2 : splitDot "updatedAt" = ["updatedAt"] := by decide
    have hsp3 : splitDot "status.current" = ["status", "current"] := by decide
    have hsp4 : splitDot "metadata" = ["metadata"] := by decide
    by_cases hdi : truthyOpt di = true
    · have hfields : oldSetFields (some dsv) (.vStr sc) di dn de now
          = [("donationStatus", dsv), ("updatedAt", Value.vStr now),
             ("status.current", Value.vStr sc),
             ("metadata",
              Value.vObj [("donorId", valOrNull di),
                          ("donorName", valOrNull dn),
                          ("donorEmail", valOrNull de),
                          ("updatedAt", .vStr now)])] := by
        simp [oldSetFields, hdi, valOrNull]
      rw [hfields]
      have happ : applySet doc [("donationStatus", dsv),
          ("updatedAt", Value.vStr now), ("status.current", Value.vStr sc),
          ("metadata",
           Value.vObj [("donorId", valOrNull di), ("donorName", valOrNull dn),
                       ("donorEmail", valOrNull de),
                       ("updatedAt", .vStr now)])]
          = setPath (setPath (setPath (setPath doc ["donationStatus"] dsv)
              ["updatedAt"] (.vStr now)) ["status", "current"] (.vStr sc))
              ["metadata"]
              (.vObj [("donorId", valOrNull di), ("donorName", valOrNull dn),
                      ("donorEmail", valOrNull de),
                      ("updatedAt", .vStr now)]) := by
        simp [applySet, hsp1, hsp2, hsp3, hsp4]
      rw [happ]
      rw [getPath_setPath_cons_ne _ _ _ _ _ _ (by decide),
        getPath_setPath_cons_ne _ _ _ _ _ _ (by decide),
        getPath_setPath_cons_ne _ _ _ _ _ _ (by decide)]
      rw [getPath_single, show setPath doc ["donationStatus"] dsv
          = setField doc "donationStatus" dsv from rfl,
        getField_setField_self]
    · have hfields : oldSetFields (some dsv) (.vStr sc) di dn de now
          = [("donationStatus", dsv), ("updatedAt", Value.vStr now),
             ("status.current", Value.vStr sc)] := by
        simp [oldSetFields, hdi, valOrNull]
      rw [hfields]
      have happ : applySet doc [("donationStatus", dsv),
          ("updatedAt", Value.vStr now), ("status.current", Value.vStr sc)]
          = setPath (setPath (setPath doc ["donationStatus"] dsv)
              ["updatedAt"] (.vStr now)) ["status", "current"] (.vStr sc) := by
        simp [applySet, hsp1, hsp2, hsp3]
      rw [happ]
      rw [getPath_setPath_cons_ne _ _ _ _ _ _ (by decide),
        getPath_setPath_cons_ne _ _ _ _ _ _ (by decide)]
      rw [getPath_single, show setPath doc ["donationStatus"] dsv
          = setField doc "donationStatus" dsv from rfl,
        getField_setField_self]

/-- **C5** (amended, witness): applied to a concrete in-progress request —
the transition update leaves `donationStatus` at `"inprogress"`, the old
revision writes the supplied `"done"`. -/
theorem claim5_amended_witness :
    getPath (applySet (mkRequest "a@x" "b@x" "inprogress" [])
        (transitionFields (mkRequest "a@x" "b@x" "inprogress" []) "completed"
          "T1" "b@x" none "donor")) ["donationStatus"]
      = some (.vStr "inprogress") ∧
    getPath (oldApply (some (.vStr "done")) (.vStr "completed") none none none
        "T1" (mkRequest "a@x" "b@x" "inprogress" [])) ["donationStatus"]
      = some (.vStr "done") := by
  have h := claim5_amended [mkRequest "a@x" "b@x" "inprogress" []] oidA
    "donor" "b@x" none "T1" (mkRequest "a@x" "b@x" "inprogress" [])
    (.vStr "done") "completed" none none none (by decide) (by decide)
    (by decide) (by decide) rfl
  exact ⟨by rw [h.1 "completed"]; rfl, h.2.2⟩

/-! ## Claim C9 — list visibility (confirmed, with spec-modelled paginate) -/

theorem listQuery_iff (e : String) (d : Value) :
    listQuery e d = true ↔
      (getPath d ["requester", "email"] = some (.vStr e) ∨
       getPath d ["donor", "email"] = some (.vStr e)) := by
  have h1 : splitDot "requester.email" = ["requester", "email"] := by decide
  have h2 : splitDot "donor.email" = ["donor", "email"] := by decide
  simp [listQuery, matchesQuery, matchesCond, lookupFieldPath, h1, h2,
    isStr_iff]

/-- **C9**: an email-identified caller receives exactly the stored requests
naming that email as requester or donor (shown here for a page large enough
to hold them all: membership in the returned items is equivalent to
membership in the store plus the party condition); a caller with no email
and role admin or volunteer receives every stored request; a caller
supplying neither is rejected with 400. -/
theorem claim9_list_visibility (store : List Value) (e : String)
    (role role2 role3 : Option String) (page limit : Nat)
    (he : e ≠ "") (hlen : store.length ≤ 100) :
    (∃ l m, listRequests store (some e) role 1 100 = .items l m ∧
      ∀ d, d ∈ l ↔ (d ∈ store ∧
        (getPath d ["requester", "email"] = some (.vStr e) ∨
         getPath d ["donor", "email"] = some (.vStr e)))) ∧
    ((role2 = some "admin" ∨ role2 = some "volunteer") →
      ∃ l m, listRequests store none role2 1 100 = .items l m ∧
        ∀ d, d ∈ l ↔ d ∈ store) ∧
    (role3 ≠ some "admin" → role3 ≠ some "volunteer" →
      listRequests store none role3 page limit
        = .rejected ⟨400,
            "Email or valid role is required to fetch donation requests"⟩) := by
  refine ⟨?_, ?_, ?_⟩
  · have hfal : falsyStr (some e) = false := by simp [falsyStr, he]
    refine ⟨(paginate store (listQuery e) 1 100).1,
      (paginate store (listQuery e) 1 100).2, ?_, ?_⟩
    · simp [listRequests, hfal]
    · intro d
      have hflen : (store.filter (listQuery e)).length ≤ 100 :=
        le_trans (List.length_filter_le _ _) hlen
      have hslen : ((store.filter (listQuery e)).insertionSort
          (fun a b => createdAtKey b ≤ createdAtKey a)).length ≤ 100 := by
        rw [List.length_insertionSort]; exact hflen
      have hitems : (paginate store (listQuery e) 1 100).1
          = (store.filter (listQuery e)).insertionSort
              (fun a b => createdAtKey b ≤ createdAtKey a) := by
        simp [paginate, List.take_of_length_le, List.length_insertionSort,
          hflen]
      rw [hitems, List.mem_insertionSort, List.mem_filter, listQuery_iff]
  · intro hrole
    have hb : (role2 == some "admin" || role2 == some "volunteer") = true := by
      rcases hrole with h | h <;> simp [h]
    refine ⟨(paginate store (fun _ => true) 1 100).1,
      (paginate store (fun _ => true) 1 100).2, ?_, ?_⟩
    · simp [listRequests, falsyStr, hb]
    · intro d
      have hslen : ((store.filter fun _ => true).insertionSort
          (fun a b => createdAtKey b ≤ createdAtKey a)).length ≤ 100 := by
        rw [List.length_insertionSort]
        exact le_trans (List.length_filter_le _ _) hlen
      have hitems : (paginate store (fun _ => true) 1 100).1
          = (store.filter fun _ => true).insertionSort
              (fun a b => createdAtKey b ≤ createdAtKey a) := by
        simp [paginate, List.take_of_length_le, List.length_insertionSort,
          hlen]
      rw [hitems, List.mem_insertionSort, List.mem_filter]
      simp
  · intro h1 h2
    have hb1 : (role3 == some "admin") = false := beq_eq_false_iff_ne.mpr h1
    have hb2 : (role3 == some "volunteer") = false := beq_eq_false_iff_ne.mpr h2
    simp [listRequests, falsyStr, hb1, hb2]

/-- **C9** (witness): a two-request store — the donor `b@x` sees exactly the
request naming them; an admin with no email sees both; a caller with
neither email nor privileged role is rejected. -/
theorem claim9_witness :
    (∃ l m, listRequests
        [mkRequest "a@x" "b@x" "pending" [], mkRequest "c@x" "d@x" "pending" []]
        (some "b@x") none 1 100 = .items l m ∧
      ∀ d, d ∈ l ↔ (d ∈ [mkRequest "a@x" "b@x" "pending" [],
          mkRequest "c@x" "d@x" "pending" []] ∧
        (getPath d ["requester", "email"] = some (.vStr "b@x") ∨
         getPath d ["donor", "email"] = some (.vStr "b@x")))) ∧
    (∃ l m, listRequests
        [mkRequest "a@x" "b@x" "pending" [], mkRequest "c@x" "d@x" "pending" []]
        none (some "admin") 1 100 = .items l m ∧
      ∀ d, d ∈ l ↔ d ∈ [mkRequest "a@x" "b@x" "pending" [],
          mkRequest "c@x" "d@x" "pending" []]) ∧
    listRequests
        [mkRequest "a@x" "b@x" "pending" [], mkRequest "c@x" "d@x" "pending" []]
        none (some "donor") 1 10
      = .rejected ⟨400,
          "Email or valid role is required to fetch donation requests"⟩ := by
  have h := claim9_list_visibility
    [mkRequest "a@x" "b@x" "pending" [], mkRequest "c@x" "d@x" "pending" []]
    "b@x" none (some "admin") (some "donor") 1 10 (by decide) (by decide)
  exact ⟨h.1, h.2.1 (Or.inl rfl), h.2.2 (by decide) (by decide)⟩

end BloodServer
